import Mathlib

/-!
Verification development for the KIBERone resumes back office (Django REST
service with an AlfaCRM integration).  The definitions below are a shallow
embedding of the Python source:

* `app_resumes/crm_integration.py` — token login, authenticated requests with
  a single retry on 401, paginated group listing, per-group client resolution;
* `app_resumes/models.py` — the `save` overrides that collapse list-valued
  JSON fields to their first element;
* `app_resumes/management/commands/sync_groups.py` and `sync_students.py` —
  the two upsert-style sync jobs;
* `app_resumes/views.py` — tutor registration and the group-clients endpoint.

Python JSON values are embedded as the inductive type `JValue`; Python
truthiness as `truthy`; the Redis cache and the HTTP transport are embedded
as explicit event traces and environment parameters (the environment supplies
the responses the network would return, and the trace records the requests
and cache operations that the code performs).
-/

/-- Embedded JSON value, the payloads exchanged with the CRM. -/
inductive JValue where
  | null
  | bool (b : Bool)
  | num (n : Int)
  | str (s : String)
  | arr (elems : List JValue)
  | obj (fields : List (String × JValue))

mutual

/-- Decidable equality of embedded JSON values. -/
def JValue.decEq : (a b : JValue) → Decidable (a = b)
  | .null, .null => .isTrue rfl
  | .bool a, .bool b =>
      if h : a = b then .isTrue (by rw [h]) else .isFalse (fun hh => h (by cases hh; rfl))
  | .num a, .num b =>
      if h : a = b then .isTrue (by rw [h]) else .isFalse (fun hh => h (by cases hh; rfl))
  | .str a, .str b =>
      if h : a = b then .isTrue (by rw [h]) else .isFalse (fun hh => h (by cases hh; rfl))
  | .arr xs, .arr ys =>
      match JValue.decEqList xs ys with
      | .isTrue h => .isTrue (by rw [h])
      | .isFalse h => .isFalse (fun hh => h (by cases hh; rfl))
  | .obj fs, .obj gs =>
      match JValue.decEqFields fs gs with
      | .isTrue h => .isTrue (by rw [h])
      | .isFalse h => .isFalse (fun hh => h (by cases hh; rfl))
  | .null, .bool _ => .isFalse (fun h => by cases h)
  | .null, .num _ => .isFalse (fun h => by cases h)
  | .null, .str _ => .isFalse (fun h => by cases h)
  | .null, .arr _ => .isFalse (fun h => by cases h)
  | .null, .obj _ => .isFalse (fun h => by cases h)
  | .bool _, .null => .isFalse (fun h => by cases h)
  | .bool _, .num _ => .isFalse (fun h => by cases h)
  | .bool _, .str _ => .isFalse (fun h => by cases h)
  | .bool _, .arr _ => .isFalse (fun h => by cases h)
  | .bool _, .obj _ => .isFalse (fun h => by cases h)
  | .num _, .null => .isFalse (fun h => by cases h)
  | .num _, .bool _ => .isFalse (fun h => by cases h)
  | .num _, .str _ => .isFalse (fun h => by cases h)
  | .num _, .arr _ => .isFalse (fun h => by cases h)
  | .num _, .obj _ => .isFalse (fun h => by cases h)
  | .str _, .null => .isFalse (fun h => by cases h)
  | .str _, .bool _ => .isFalse (fun h => by cases h)
  | .str _, .num _ => .isFalse (fun h => by cases h)
  | .str _, .arr _ => .isFalse (fun h => by cases h)
  | .str _, .obj _ => .isFalse (fun h => by cases h)
  | .arr _, .null => .isFalse (fun h => by cases h)
  | .arr _, .bool _ => .isFalse (fun h => by cases h)
  | .arr _, .num _ => .isFalse (fun h => by cases h)
  | .arr _, .str _ => .isFalse (fun h => by cases h)
  | .arr _, .obj _ => .isFalse (fun h => by cases h)
  | .obj _, .null => .isFalse (fun h => by cases h)
  | .obj _, .bool _ => .isFalse (fun h => by cases h)
  | .obj _, .num _ => .isFalse (fun h => by cases h)
  | .obj _, .str _ => .isFalse (fun h => by cases h)
  | .obj _, .arr _ => .isFalse (fun h => by cases h)

/-- Decidable equality of JSON value lists. -/
def JValue.decEqList : (xs ys : List JValue) → Decidable (xs = ys)
  | [], [] => .isTrue rfl
  | [], _ :: _ => .isFalse (fun h => by cases h)
  | _ :: _, [] => .isFalse (fun h => by cases h)
  | x :: xs, y :: ys =>
      match JValue.decEq x y with
      | .isFalse h => .isFalse (fun hh => h (by cases hh; rfl))
      | .isTrue h1 =>
        match JValue.decEqList xs ys with
        | .isTrue h2 => .isTrue (by rw [h1, h2])
        | .isFalse h2 => .isFalse (fun hh => h2 (by cases hh; rfl))

/-- Decidable equality of JSON object field lists. -/
def JValue.decEqFields : (fs gs : List (String × JValue)) → Decidable (fs = gs)
  | [], [] => .isTrue rfl
  | [], _ :: _ => .isFalse (fun h => by cases h)
  | _ :: _, [] => .isFalse (fun h => by cases h)
  | (k1, v1) :: fs, (k2, v2) :: gs =>
      if hk : k1 = k2 then
        match JValue.decEq v1 v2 with
        | .isFalse h => .isFalse (fun hh => h (by cases hh; rfl))
        | .isTrue h1 =>
          match JValue.decEqFields fs gs with
          | .isTrue h2 => .isTrue (by rw [hk, h1, h2])
          | .isFalse h2 => .isFalse (fun hh => h2 (by cases hh; rfl))
      else .isFalse (fun hh => hk (by cases hh; rfl))

end

instance : DecidableEq JValue := JValue.decEq

/-- Python truthiness of an embedded JSON value (`if value:`). -/
def truthy : JValue → Bool
  | .null => false
  | .bool b => b
  | .num n => n != 0
  | .str s => s != ""
  | .arr xs => !xs.isEmpty
  | .obj fs => !fs.isEmpty

/-- Python `repr` of an embedded JSON value (strings are quoted). -/
def pyRepr : JValue → String
  | .null => "None"
  | .bool b => if b then "True" else "False"
  | .num n => toString n
  | .str s => "'" ++ s ++ "'"
  | .arr xs => "[" ++ String.intercalate ", "
      (xs.attach.map (fun x => pyRepr x.1)) ++ "]"
  | .obj fs => "\x7b" ++ String.intercalate ", "
      (fs.attach.map (fun f => "'" ++ f.1.1 ++ "': " ++ pyRepr f.1.2)) ++ "\x7d"
decreasing_by
  · have := List.sizeOf_lt_of_mem x.2
    simp only [JValue.arr.sizeOf_spec]
    omega
  · have h1 := List.sizeOf_lt_of_mem f.2
    have h2 : sizeOf f.1.2 < sizeOf f.1 := by
      obtain ⟨a, b⟩ := f.1
      simp only [Prod.mk.sizeOf_spec]
      omega
    simp only [JValue.obj.sizeOf_spec]
    omega

/-- Python `str` of an embedded JSON value: like `repr` except that a
top-level string is unquoted. -/
def pyStr : JValue → String
  | .null => "None"
  | .bool b => if b then "True" else "False"
  | .num n => toString n
  | .str s => s
  | .arr xs => pyRepr (.arr xs)
  | .obj fs => pyRepr (.obj fs)

/-- Python `str.isdigit` (nonempty and all decimal digits). -/
def pyIsdigit (s : String) : Bool :=
  s != "" && s.toList.all Char.isDigit

/-- Strip leading and trailing whitespace from a character list. -/
def stripChars (cs : List Char) : List Char :=
  ((cs.dropWhile Char.isWhitespace).reverse.dropWhile Char.isWhitespace).reverse

/-- Python `str.strip()` (also the whitespace trimming that DRF char fields
apply to validated input). -/
def pyStrip (s : String) : String :=
  ⟨stripChars s.toList⟩

/-- Decimal value of a nonempty all-digit character list. -/
def natOfDigits? : List Char → Option Nat
  | [] => none
  | cs =>
    if cs.all Char.isDigit then
      some (cs.foldl (fun n c => n * 10 + (c.toNat - 48)) 0)
    else none

/-- Python `int(s)` on a string: optional sign and decimal digits,
surrounding whitespace tolerated; `none` models the raised `ValueError`. -/
def pyIntOfString (s : String) : Option Int :=
  match stripChars s.toList with
  | [] => none
  | '-' :: rest => (natOfDigits? rest).map (fun n => -(n : Int))
  | '+' :: rest => (natOfDigits? rest).map Int.ofNat
  | cs => (natOfDigits? cs).map Int.ofNat

/-- Python `int(value)` on a scalar JSON value (`None` for containers). -/
def pyIntValue : JValue → Option Int
  | .num n => some n
  | .bool b => some (if b then 1 else 0)
  | .str s => pyIntOfString s
  | _ => none

/-- Python `dict.get(key)` with default `None`: `none` models the
`AttributeError` raised when the receiver is not a dict. -/
def jGet (v : JValue) (k : String) : Option JValue :=
  match v with
  | .obj fs => some (((fs.find? (fun f => f.1 == k)).map Prod.snd).getD .null)
  | _ => none

/-- Python `dict.get(key, default)`: `none` models the `AttributeError`
raised when the receiver is not a dict. -/
def jGetD (v : JValue) (k : String) (d : JValue) : Option JValue :=
  match v with
  | .obj fs => some (((fs.find? (fun f => f.1 == k)).map Prod.snd).getD d)
  | _ => none

/-- The array-collapsing assignment shared by the `save` overrides of
`TutorProfile` (fields `phone`, `email`, `web`, `addr`) and `Group`
(fields `branch_ids`, `teacher_ids`) in `app_resumes/models.py`:
`field = field[0] if field[0] else None` runs only when the value is a
nonempty list; every other value is stored unchanged. -/
def collapseFirst : JValue → JValue
  | .arr (x :: _) => if truthy x then x else .null
  | v => v

section CrmClient

/-- HTTP method of an outgoing request. -/
inductive Method where
  | get
  | post
deriving DecidableEq

/-- An outgoing CRM request as the integration layer assembles it:
`requests.post(url, headers=..., json=data, params=params)`.  Only the
`X-ALFACRM-TOKEN` header varies, so headers are embedded as that token. -/
structure HttpRequest where
  method : Method
  url : String
  token : Option String
  body : Option JValue
  params : List (String × String)
deriving DecidableEq

/-- A CRM response: status code and parsed JSON body (`none` embeds a body on
which `response.json()` raises). -/
structure HttpResponse where
  status : Nat
  body : Option JValue
deriving DecidableEq

/-- Outcome of one `requests.post` round trip. -/
inductive NetOutcome where
  | resp (r : HttpResponse)
  | timeout
  | connError
deriving DecidableEq

/-- A network-level exception (`requests.exceptions.Timeout` /
`ConnectionError`) escaping `make_authenticated_request`. -/
inductive NetError where
  | timeout
  | connError
deriving DecidableEq

/-- Side effects performed by the CRM client: outgoing requests and Redis
cache operations on the `crm_auth_token` slot. -/
inductive CrmEvent where
  | request (req : HttpRequest)
  | cacheSetex (ttl : Nat) (value : String)
  | cacheDel
deriving DecidableEq

/-- Environment of one `login_to_alfa_crm()` call: the cached Redis token,
whether the three CRM settings are configured, the CRM base URL, and the
outcome the auth endpoint would return. -/
structure LoginEnv where
  cached : Option String
  credsPresent : Bool
  baseUrl : String
  outcome : NetOutcome

/-- Python `str.rstrip("/")`. -/
def rstripSlash (s : String) : String :=
  ⟨(s.toList.reverse.dropWhile (fun c => c == '/')).reverse⟩

/-- `login_to_alfa_crm` (crm_integration.py:22-60).  Returns the cached token
if present; otherwise, with credentials configured, POSTs to
`{base}/v2api/auth/login`; on status 200 whose body carries a `token` field it
caches the token for 3600 seconds and returns it; any other status, timeout,
connection error, or body on which parsing raises yields `none`.  The second
component is the trace of requests and cache writes performed. -/
def login_to_alfa_crm (env : LoginEnv) : Option String × List CrmEvent :=
  match env.cached with
  | some t => (some t, [])
  | none =>
    if !env.credsPresent then (none, [])
    else
      let url := rstripSlash env.baseUrl ++ "/v2api/auth/login"
      let req : HttpRequest := ⟨.post, url, none, none, []⟩
      match env.outcome with
      | .timeout => (none, [.request req])
      | .connError => (none, [.request req])
      | .resp r =>
        if r.status == 200 then
          match r.body with
          | none => (none, [.request req])
          | some bodyv =>
            match jGet bodyv "token" with
            | none => (none, [.request req])
            | some tokenv =>
              match tokenv with
              | .null => (none, [.request req])
              | .str s =>
                if s != "" then (some s, [.request req, .cacheSetex 3600 s])
                else (some "", [.request req])
              | _ => (none, [.request req])
        else (none, [.request req])

/-- Environment of one `make_authenticated_request` call: the outcome of the
first `requests.post`, the token a re-login after a 401 would produce, and the
outcome of the retried `requests.post`. -/
structure AuthReqEnv where
  first : NetOutcome
  relogin : Option String
  retry : NetOutcome

/-- `make_authenticated_request` (crm_integration.py:63-98).  Issues the POST;
on a 401 response it deletes the cached token and re-logs-in: with no fresh
token the original 401 response is returned, otherwise the request is retried
exactly once with the fresh token in `X-ALFACRM-TOKEN` and the retry's
response is returned.  Timeouts and connection errors propagate as errors. -/
def make_authenticated_request (env : AuthReqEnv) (url : String)
    (hdrToken : Option String) (data : Option JValue)
    (params : List (String × String)) :
    Except NetError HttpResponse × List CrmEvent :=
  let req1 : HttpRequest := ⟨.post, url, hdrToken, data, params⟩
  match env.first with
  | .timeout => (.error .timeout, [.request req1])
  | .connError => (.error .connError, [.request req1])
  | .resp r =>
    if r.status == 401 then
      match env.relogin with
      | none => (.ok r, [.request req1, .cacheDel])
      | some t =>
        let req2 : HttpRequest := ⟨.post, url, some t, data, params⟩
        match env.retry with
        | .timeout => (.error .timeout, [.request req1, .cacheDel, .request req2])
        | .connError =>
            (.error .connError, [.request req1, .cacheDel, .request req2])
        | .resp r2 => (.ok r2, [.request req1, .cacheDel, .request req2])
    else (.ok r, [.request req1])

/-- Left-to-right traversal that stops at the first failure, as a Python
loop or comprehension raising at the first bad element does. -/
def traverseOption (f : α → Option β) : List α → Option (List β)
  | [] => some []
  | x :: xs =>
    match f x, traverseOption f xs with
    | some y, some ys => some (y :: ys)
    | _, _ => none

/-- `[ci["customer_id"] for ci in items]` over the parsed `items` value:
`none` embeds the `TypeError`/`KeyError` raised when `items` is not a list or
an element is not a dict carrying the key (caught by the enclosing
`except Exception`). -/
def extractCustomerIds : JValue → Option (List JValue)
  | .arr items => traverseOption (fun it =>
      match it with
      | .obj fs => (fs.find? (fun f => f.1 == "customer_id")).map Prod.snd
      | _ => none) items
  | _ => none

/-- Name resolution for one customer id inside `get_group_clients_from_crm`:
`client_data = get_client_data_from_crm(str(customer_id), branch)`, then
`client_data.get("name", "Неизвестный клиент")` behind `if client_data:`,
else the placeholder `"Клиент не найден"`.  `none` embeds the
`AttributeError` raised when a truthy `client_data` is not a dict. -/
def resolveClientName (lookup : String → Option JValue) (cid : JValue) :
    Option JValue :=
  match lookup (pyStr cid) with
  | none => some (.str "Клиент не найден")
  | some cd =>
    if truthy cd then jGetD cd "name" (.str "Неизвестный клиент")
    else some (.str "Клиент не найден")

/-- The name `resolveClientName` computes for one customer id, as a total
function: the value of `client_data.get("name", "Неизвестный клиент")` for a
truthy dict lookup result, and the placeholder `"Клиент не найден"` for a
failed or falsy lookup. -/
def clientNameOf (lookup : String → Option JValue) (cid : JValue) : JValue :=
  match lookup (pyStr cid) with
  | none => .str "Клиент не найден"
  | some cd =>
    if truthy cd then
      (jGetD cd "name" (.str "Неизвестный клиент")).getD
        (.str "Неизвестный клиент")
    else .str "Клиент не найден"

/-- The `try` block of `get_group_clients_from_crm` after the cgi/index round
trip (crm_integration.py:287-315): `raise_for_status`, parse the body,
extract customer ids, resolve each to a name, and zip ids with names into
`{"customer_id": ..., "client_name": ...}` entries, embedded as pairs; every
caught exception yields `none`. -/
def cgiResult (res : Except NetError HttpResponse)
    (lookup : String → Option JValue) : Option (List (JValue × JValue)) :=
  match res with
  | .error _ => none
  | .ok r =>
    if 400 ≤ r.status then none
    else
      match r.body with
      | none => none
      | some bodyv =>
        match jGetD bodyv "items" (.arr []) with
        | none => none
        | some itemsv =>
          match extractCustomerIds itemsv with
          | none => none
          | some customer_ids =>
            match traverseOption (resolveClientName lookup) customer_ids with
            | none => none
            | some client_names => some (customer_ids.zip client_names)

/-- `get_group_clients_from_crm` (crm_integration.py:263-315).  Guards on a
truthy branch and a configured API key, logs in, issues the authenticated
request to `{base}/v2api/{branch}/cgi/index` with `group_id` as a query
parameter, and processes the response with `cgiResult`. -/
def get_group_clients_from_crm (base : String) (apiKey : Bool)
    (loginResult : Option String) (cgiEnv : AuthReqEnv)
    (lookup : String → Option JValue) (group_id : String)
    (branch : Option String) : Option (List (JValue × JValue)) × List CrmEvent :=
  match branch with
  | none => (none, [])
  | some b =>
    if b == "" then (none, [])
    else if !apiKey then (none, [])
    else
      match loginResult with
      | none => (none, [])
      | some token =>
        let url := base ++ "/v2api/" ++ b ++ "/cgi/index"
        let pr :=
          make_authenticated_request cgiEnv url (some token) none
            [("group_id", group_id)]
        (cgiResult pr.1 lookup, pr.2)

/-- Outcome of fetching one page of `{base}/v2api/{branch}/group/index` inside
`get_all_groups`: either the parsed `items` list and `total` field of a
successful response, or a raised-and-caught `requests.HTTPError` /
`requests.RequestException` / other exception, each of which breaks that
branch's pagination. -/
inductive PageOutcome where
  | ok (items : List JValue) (total : Nat)
  | fetchError
deriving DecidableEq

/-- The `while True` pagination loop body of `get_all_groups`
(crm_integration.py:342-378) for one branch.  `acc` is the `all_items`
accumulator, shared across branches; the result pairs the grown accumulator
with the number of pages requested for this branch.  The loop stops on an
error, on a page with zero items, or when `len(all_items) >= total > 0`;
`fuel` bounds the unrolling (the Python loop is unbounded). -/
def branchPages (env : Nat → Nat → PageOutcome) (branch : Nat) :
    Nat → Nat → List JValue → List JValue × Nat
  | 0, _, acc => (acc, 0)
  | fuel + 1, page, acc =>
    match env branch page with
    | .fetchError => (acc, 1)
    | .ok items total =>
      if items.length == 0 then (acc, 1)
      else
        let acc1 := acc ++ items
        if total ≤ acc1.length && 0 < total then (acc1, 1)
        else
          let rest := branchPages env branch fuel (page + 1) acc1
          (rest.1, rest.2 + 1)

/-- `get_all_groups` (crm_integration.py:318-381).  Guards on a configured
API key and a login token, then iterates branches `[1, 2, 3, 4]`, paging each
with `{"page": page, "limit": 50}` and accumulating every page's items into
one shared `all_items` list.  Returns the accumulated items together with the
number of pages requested per branch. -/
def get_all_groups (env : Nat → Nat → PageOutcome) (fuel : Nat)
    (apiKey : Bool) (token : Option String) :
    Option (List JValue × List Nat) :=
  if !apiKey then none
  else
    match token with
    | none => none
    | some _ =>
      let step := fun (st : List JValue × List Nat) (branch : Nat) =>
        let r := branchPages env branch fuel 0 st.1
        (r.1, st.2 ++ [r.2])
      some ([1, 2, 3, 4].foldl step ([], []))

end CrmClient

section SyncJobs

/-- One CRM group item as `sync_groups` reads it: `group_data.get(...)` for
each mirrored field (`.null` embeds a missing key), with the CRM group id
assumed present per the CRM contract (`id` is the upsert key). -/
structure GroupItem where
  id : Int
  branch_ids : JValue
  teacher_ids : JValue
  name : JValue
  level_id : JValue
  status_id : JValue
  company_id : JValue
  streaming_id : JValue
  limit : JValue
  note : JValue
  b_date : JValue
  e_date : JValue
  created_at : JValue
  updated_at : JValue
  custom_aerodromnaya : JValue
deriving DecidableEq

/-- A stored `Group` row (models.py:88-115), mirrored fields only. -/
structure GroupRow where
  crm_group_id : Int
  branch_ids : JValue
  teacher_ids : JValue
  name : JValue
  level_id : JValue
  status_id : JValue
  company_id : JValue
  streaming_id : JValue
  limit : JValue
  note : JValue
  b_date : JValue
  e_date : JValue
  created_at : JValue
  updated_at : JValue
  custom_aerodromnaya : JValue
deriving DecidableEq

/-- `Group.save` (models.py:109-115): collapse list-valued `branch_ids` and
`teacher_ids` to their first element (or null when that element is falsy)
before the row is written. -/
def groupSave (r : GroupRow) : GroupRow :=
  { r with
    branch_ids := collapseFirst r.branch_ids
    teacher_ids := collapseFirst r.teacher_ids }

/-- The row written for a CRM group item (create path of
`Group.objects.get_or_create` and the overwrite path, both of which set every
mirrored field from the item and go through `Group.save`). -/
def groupRowOfItem (it : GroupItem) : GroupRow :=
  groupSave
    { crm_group_id := it.id
      branch_ids := it.branch_ids
      teacher_ids := it.teacher_ids
      name := it.name
      level_id := it.level_id
      status_id := it.status_id
      company_id := it.company_id
      streaming_id := it.streaming_id
      limit := it.limit
      note := it.note
      b_date := it.b_date
      e_date := it.e_date
      created_at := it.created_at
      updated_at := it.updated_at
      custom_aerodromnaya := it.custom_aerodromnaya }

/-- One iteration of the `sync_groups` loop (sync_groups.py:36-73):
`get_or_create` keyed on `crm_group_id`; when the row exists every mirrored
field is overwritten and saved, otherwise a new row is created. -/
def upsertGroup (db : List GroupRow) (it : GroupItem) : List GroupRow :=
  if db.any (fun r => r.crm_group_id == it.id) then
    db.map (fun r => if r.crm_group_id == it.id then groupRowOfItem it else r)
  else
    db ++ [groupRowOfItem it]

/-- `sync_groups` `Command.handle` main loop (sync_groups.py:17-77): upsert
each CRM item in order, incrementing `synced_count` once per item. -/
def syncGroups (db : List GroupRow) (items : List GroupItem) :
    List GroupRow × Nat :=
  items.foldl (fun st it => (upsertGroup st.1 it, st.2 + 1)) (db, 0)

/-- The CRM group ids (upsert keys) of the stored Group rows. -/
def groupKeys (db : List GroupRow) : List Int :=
  db.map (fun r => r.crm_group_id)

/-- A stored `Student` row (models.py:126-134): unique CRM customer id, name,
and nullable pointer to the local `Group` primary key. -/
structure StudentRow where
  student_crm_id : JValue
  student_name : JValue
  group_pk : Option Nat
deriving DecidableEq

/-- The `Group` columns that `sync_students` reads from each local row: the
primary key (`group.id`), `crm_group_id`, and `branch_ids`. -/
structure SGroup where
  pk : Nat
  crm_group_id : Int
  branch_ids : JValue
deriving DecidableEq

/-- Branch resolution in `sync_students` (sync_students.py:21-27): default
`"1"`, else the stringified first element of a list-valued `branch_ids`, else
the stringified scalar. -/
def branchOf (g : SGroup) : String :=
  if truthy g.branch_ids then
    match g.branch_ids with
    | .arr (x :: _) => pyStr x
    | .arr [] => "1"
    | v => pyStr v
  else "1"

/-- The in-place update of `sync_students` (sync_students.py:41-43): a row
matching the upserted customer id whose group pointer differs is repointed
to the current group; every other row is untouched. -/
def repointStudent (cid : JValue) (gpk : Nat) (r : StudentRow) : StudentRow :=
  if r.student_crm_id == cid then
    if r.group_pk ≠ some gpk then { r with group_pk := some gpk } else r
  else r

/-- One client upsert in `sync_students` (sync_students.py:38-43):
`get_or_create` keyed on `student_crm_id`; a pre-existing student whose group
pointer differs is repointed to the current group (name left unchanged). -/
def upsertStudent (db : List StudentRow) (cid cname : JValue) (gpk : Nat) :
    List StudentRow :=
  if db.any (fun r => r.student_crm_id == cid) then
    db.map (repointStudent cid gpk)
  else
    db ++ [⟨cid, cname, some gpk⟩]

/-- The client loop of `sync_students` for one group (sync_students.py:32-45):
entries whose `customer_id` or `client_name` is missing or falsy are skipped;
the rest are upserted, incrementing `total_synced` per upserted client. -/
def syncGroupClients (gpk : Nat) (clients : List (JValue × JValue))
    (st : List StudentRow × Nat) : List StudentRow × Nat :=
  clients.foldl (fun st c =>
    if truthy c.1 && truthy c.2 then (upsertStudent st.1 c.1 c.2 gpk, st.2 + 1)
    else st) st

/-- One group iteration of `sync_students` (sync_students.py:20-45): resolve
the branch, fetch the group's client list from the CRM (`env`; `none` embeds
a failed fetch), and — when the list is present and nonempty — run the
client loop for this group. -/
def studentSyncStep (env : Int → String → Option (List (JValue × JValue)))
    (st : List StudentRow × Nat) (g : SGroup) : List StudentRow × Nat :=
  match env g.crm_group_id (branchOf g) with
  | none => st
  | some clients =>
    if clients.isEmpty then st
    else syncGroupClients g.pk clients st

/-- `sync_students` `Command.handle` main loop (sync_students.py:9-47): fold
the per-group step over every local group, starting from the stored student
table and a zero counter. -/
def syncStudents (groups : List SGroup)
    (env : Int → String → Option (List (JValue × JValue)))
    (db : List StudentRow) : List StudentRow × Nat :=
  groups.foldl (studentSyncStep env) (db, 0)

/-- The Student rows stored under a given CRM customer id. -/
def rowsWithCid (db : List StudentRow) (cid : JValue) : List StudentRow :=
  db.filter (fun r => r.student_crm_id == cid)

end SyncJobs

section ApiLayer

/-- A stored `TutorProfile` row (models.py:4-36), the fields written by
`register_tutor`. -/
structure TutorRow where
  tutor_crm_id : Option Int
  tutor_name : JValue
  branch : String
  is_senior : Bool
  phone_number : String
  branch_ids : JValue
  dob : JValue
  gender : JValue
  streaming_id : JValue
  note : JValue
  e_date : JValue
  avatar_url : JValue
  phone : JValue
  email : JValue
  web : JValue
  addr : JValue
  teacher_to_skill : JValue
deriving DecidableEq

/-- `TutorProfile.save` (models.py:26-36): collapse the list-valued contact
fields `phone`, `email`, `web`, `addr` to their first element (or null when
that element is falsy) before the row is written. -/
def tutorProfileSave (r : TutorRow) : TutorRow :=
  { r with
    phone := collapseFirst r.phone
    email := collapseFirst r.email
    web := collapseFirst r.web
    addr := collapseFirst r.addr }

/-- CRM-id normalisation in `register_tutor` (views.py:157,173-177):
`int(tutor_crm_id) if str(tutor_crm_id).isdigit() else None`, guarded by
`tutor_crm_id is not None`. -/
def parseCrmId (v : JValue) : Option Int :=
  if v == .null then none
  else if pyIsdigit (pyStr v) then pyIntValue v else none

/-- Response of the tutor registration endpoint. -/
inductive RegisterOutcome where
  | created (row : TutorRow)
  | phoneAlreadyRegistered
  | tutorNotFound
  | validationError
  | serverError
deriving DecidableEq

/-- `register_tutor` (views.py:117-204).  Validates the request body
(`phone_number` and `tutor_branch_id` are required nonblank char fields,
whitespace-trimmed, max lengths 20 and 255), rejects an already-registered
phone with a 400 "Phone number already registered" response, resolves the
tutor in the CRM (`crm`; a missing or falsy record yields 404), and otherwise
creates one `TutorProfile` row with `is_senior = false`.  `serverError`
embeds the uncaught `AttributeError` when the CRM item is not a dict. -/
def register_tutor (db : List TutorRow) (phone_number : Option String)
    (tutor_branch_id : Option String) (crm : String → String → Option JValue) :
    RegisterOutcome × List TutorRow :=
  match phone_number, tutor_branch_id with
  | some p0, some b0 =>
    let p := pyStrip p0
    let b := pyStrip b0
    if p == "" || 20 < p.length || b == "" || 255 < b.length then
      (.validationError, db)
    else if db.any (fun r => r.phone_number == p) then
      (.phoneAlreadyRegistered, db)
    else
      match crm p b with
      | none => (.tutorNotFound, db)
      | some data =>
        if !truthy data then (.tutorNotFound, db)
        else
          match data with
          | .obj _ =>
            let f := fun k => (jGet data k).getD .null
            let row := tutorProfileSave
              { tutor_crm_id := parseCrmId (f "id")
                tutor_name := f "name"
                branch := b
                is_senior := false
                phone_number := p
                branch_ids := f "branch_ids"
                dob := f "dob"
                gender := f "gender"
                streaming_id := f "streaming_id"
                note := f "note"
                e_date := f "e_date"
                avatar_url := f "avatar_url"
                phone := f "phone"
                email := f "email"
                web := f "web"
                addr := f "addr"
                teacher_to_skill := f "teacher-to-skill" }
            (.created row, db ++ [row])
          | _ => (.serverError, db)
  | _, _ => (.validationError, db)

/-- Response of the group-clients endpoint: a 200 list of
`{"customer_id", "client_name"}` entries, the 200 body `{"clients": []}`, or
the 401 authentication failure. -/
inductive ClientsResult where
  | ok (entries : List (JValue × JValue))
  | okEmpty
  | authRequired
deriving DecidableEq

/-- `get_group_clients` view (views.py:353-415).  Reads the `group_id` query
parameter (default `""`), requires authentication, and then — with every
exception path collapsed to `{"clients": []}` — parses the id, looks up the
local group by `crm_group_id`, and lists its students; an empty student list
also yields `{"clients": []}`.  `groups` is the local Group table as
`(primary key, crm_group_id)` pairs. -/
def get_group_clients_view (authed : Bool) (groupIdParam : Option String)
    (groups : List (Nat × Int)) (students : List StudentRow) : ClientsResult :=
  let gid := groupIdParam.getD ""
  if !authed then .authRequired
  else
    match pyIntOfString gid with
    | none => .okEmpty
    | some g =>
      match groups.find? (fun p => p.2 == g) with
      | none => .okEmpty
      | some grp =>
        let entries := (students.filter (fun s => s.group_pk == some grp.1)).map
          (fun s => (s.student_crm_id, s.student_name))
        if entries.isEmpty then .okEmpty else .ok entries

end ApiLayer

section Fixtures

/-- Page environment in which branches 1 and 2 both serve pages of 20, 20
and 0 items with a reported total of 40, and branches 3 and 4 are empty. -/
def pagesTwoBranches : Nat → Nat → PageOutcome := fun branch page =>
  if branch ≤ 2 then
    if page = 0 then .ok (List.replicate 20 .null) 40
    else if page = 1 then .ok (List.replicate 20 .null) 40
    else .ok [] 40
  else .ok [] 0

/-- CRM stub for the registration scenario: the teacher record with id 42
for phone `"+375447123218"` at branch `"1"`. -/
def regCrmStub : String → String → Option JValue := fun phone branch =>
  if phone == "+375447123218" && branch == "1" then
    some (.obj [("id", .num 42), ("name", .str "Тестовый Преподаватель")])
  else none

/-- The single local group of the student-reassignment scenario: Group B,
primary key 2, CRM group id 200, branch list `[1]`. -/
def groupB : SGroup := ⟨2, 200, .arr [.num 1]⟩

/-- Client-list environment of the student-reassignment scenario: Group B's
CRM listing carries customer 5. -/
def reassignEnv : Int → String → Option (List (JValue × JValue)) :=
  fun gid _ =>
    if gid == 200 then some [(.num 5, .str "Сергей")] else none

/-- The pre-sync student table of the reassignment scenario: customer 5 is
stored under group primary key 1 (Group A). -/
def reassignDb : List StudentRow := [⟨.num 5, .str "Сергей", some 1⟩]

/-- CRM group item whose `branch_ids` and `teacher_ids` are two-element
arrays, exercising the save-collapse. -/
def collapseItem : GroupItem :=
  ⟨7, .arr [.num 1, .num 2], .arr [.num 3, .num 4], .str "Группа", .num 1,
    .num 1, .null, .null, .num 10, .null, .null, .null, .null, .null, .null⟩

/-- Environment for the 401-retry scenario: first response 401, re-login
succeeds with a fresh token, retry returns 200. -/
def retryEnv : AuthReqEnv :=
  ⟨.resp ⟨401, none⟩, some "fresh", .resp ⟨200, some (.obj [])⟩⟩

/-- Environment for one cgi/index listing: a 200 response carrying customers
5 and 6. -/
def cgiListEnv : AuthReqEnv :=
  ⟨.resp ⟨200, some (.obj [("items", .arr
      [.obj [("customer_id", .num 5)], .obj [("customer_id", .num 6)]])])⟩,
    none, .timeout⟩

/-- Per-id lookup stub for the cgi scenario: customer 5 resolves, customer 6
does not. -/
def cgiLookupStub : String → Option JValue := fun cid =>
  if cid == "5" then some (.obj [("name", .str "Сергей")]) else none

end Fixtures

/-- C1: whenever the first CRM response has status 401,
`make_authenticated_request` clears the cached token and re-logs-in; a
successful re-login triggers exactly one retry carrying the refreshed token
in the `X-ALFACRM-TOKEN` header, whose response is returned; a failed
re-login returns the original 401 response unchanged with no retry; any
first response with a status other than 401 is returned with no retry. -/
theorem make_authenticated_request_401_retry (env : AuthReqEnv) (url : String)
    (tok : Option String) (data : Option JValue)
    (params : List (String × String)) (r : HttpResponse)
    (hfirst : env.first = .resp r) :
    (r.status = 401 →
      (env.relogin = none →
        make_authenticated_request env url tok data params =
          (.ok r, [.request ⟨.post, url, tok, data, params⟩, .cacheDel])) ∧
      (∀ t, env.relogin = some t → ∀ r2, env.retry = .resp r2 →
        make_authenticated_request env url tok data params =
          (.ok r2, [.request ⟨.post, url, tok, data, params⟩, .cacheDel,
            .request ⟨.post, url, some t, data, params⟩]))) ∧
    (r.status ≠ 401 →
      make_authenticated_request env url tok data params =
        (.ok r, [.request ⟨.post, url, tok, data, params⟩])) := by
  constructor
  · intro h401
    constructor
    · intro hrel
      simp [make_authenticated_request, hfirst, h401, hrel]
    · intro t hrel r2 hretry
      simp [make_authenticated_request, hfirst, h401, hrel, hretry]
  · intro hne
    simp [make_authenticated_request, hfirst, hne]

/-- Witness for C1: the 401-then-successful-retry path at a concrete
environment. -/
theorem make_authenticated_request_401_retry_witness :
    make_authenticated_request retryEnv "u" (some "stale") none [] =
      (.ok ⟨200, some (.obj [])⟩,
        [.request ⟨.post, "u", some "stale", none, []⟩, .cacheDel,
          .request ⟨.post, "u", some "fresh", none, []⟩]) :=
  ((make_authenticated_request_401_retry retryEnv "u" (some "stale") none []
      ⟨401, none⟩ rfl).1 rfl).2 "fresh" rfl ⟨200, some (.obj [])⟩ rfl

/-- C6: `login_to_alfa_crm` returns the cached token with no network
request when one is present; otherwise, on a 200 auth response carrying a
`token` field, it caches the token with TTL 3600 seconds and returns it; any
other status, timeout, connection error, or unparsable body yields no token
(the embedding is a total function, so no exception reaches the caller). -/
theorem login_to_alfa_crm_behavior (env : LoginEnv) :
    (∀ t, env.cached = some t → login_to_alfa_crm env = (some t, [])) ∧
    (env.cached = none → env.credsPresent = true →
      (∀ r bodyv s, env.outcome = .resp r → r.status = 200 →
        r.body = some bodyv → jGet bodyv "token" = some (.str s) → s ≠ "" →
        login_to_alfa_crm env =
          (some s,
            [.request ⟨.post, rstripSlash env.baseUrl ++ "/v2api/auth/login",
              none, none, []⟩, .cacheSetex 3600 s])) ∧
      (∀ r, env.outcome = .resp r → r.status ≠ 200 →
        (login_to_alfa_crm env).1 = none) ∧
      (env.outcome = .timeout → (login_to_alfa_crm env).1 = none) ∧
      (env.outcome = .connError → (login_to_alfa_crm env).1 = none) ∧
      (∀ r, env.outcome = .resp r → r.body = none →
        (login_to_alfa_crm env).1 = none)) := by
  constructor
  · intro t ht
    simp [login_to_alfa_crm, ht]
  · intro hc hcreds
    refine ⟨?_, ?_, ?_, ?_, ?_⟩
    · intro r bodyv s hout hst hbody htok hs
      simp [login_to_alfa_crm, hc, hcreds, hout, hst, hbody, htok, hs]
    · intro r hout hst
      simp [login_to_alfa_crm, hc, hcreds, hout, hst]
    · intro hout
      simp [login_to_alfa_crm, hc, hcreds, hout]
    · intro hout
      simp [login_to_alfa_crm, hc, hcreds, hout]
    · intro r hout hbody
      rcases Nat.decEq r.status 200 with hst | hst
      · simp [login_to_alfa_crm, hc, hcreds, hout, hst]
      · simp [login_to_alfa_crm, hc, hcreds, hout, hst, hbody]

/-- Witness for C6: the cached-token case and the fresh-login case at
concrete environments. -/
theorem login_to_alfa_crm_behavior_witness :
    login_to_alfa_crm ⟨some "tok", true, "http://crm", .timeout⟩ =
      (some "tok", []) ∧
    login_to_alfa_crm
        ⟨none, true, "http://crm/",
          .resp ⟨200, some (.obj [("token", .str "fresh")])⟩⟩ =
      (some "fresh",
        [.request ⟨.post, "http://crm/v2api/auth/login", none, none, []⟩,
          .cacheSetex 3600 "fresh"]) := by
  constructor
  · exact (login_to_alfa_crm_behavior _).1 "tok" rfl
  · exact ((login_to_alfa_crm_behavior _).2 rfl rfl).1 ⟨200,
      some (.obj [("token", .str "fresh")])⟩ (.obj [("token", .str "fresh")])
      "fresh" rfl rfl rfl (by decide) (by decide)

/-- Counterexample for C2: in `pagesTwoBranches` both branch 1 and branch 2
serve pages of 20, 20, 0 items with total 40, yet the run requests pages
`[2, 1, 1, 1]` and accumulates 60 items overall — branch 2 stops after one
page with only 20 of its items, because the stop condition
`len(all_items) >= total > 0` reads the accumulator shared across branches,
contradicting the claim that every such branch fetches exactly 2 pages and
accumulates its 40 items. -/
theorem get_all_groups_global_accumulator_counterexample :
    get_all_groups pagesTwoBranches 10 true (some "tok") =
      some (List.replicate 60 JValue.null, [2, 1, 1, 1]) ∧
    ¬ ((get_all_groups pagesTwoBranches 10 true (some "tok")).map
        (fun p => p.2.get? 1) = some (some 2)) := by
  constructor
  · rfl
  · intro h
    rw [show get_all_groups pagesTwoBranches 10 true (some "tok") =
      some (List.replicate 60 JValue.null, [2, 1, 1, 1]) from rfl] at h
    simp at h

/-- C2 (amended): for a branch whose first two pages return 20 and 20 items
with a reported total of 40, pagination fetches exactly 2 pages and
accumulates those 40 items only when the shared `all_items` accumulator is
empty when the branch starts (as for the first branch); when at least 20
items were already accumulated by earlier branches, the same branch stops
after a single page, because the stop condition compares the reported total
against the globally accumulated count, not a per-branch count. -/
theorem branchPages_stop_global (env : Nat → Nat → PageOutcome)
    (b fuel : Nat) (acc i0 i1 : List JValue) (hf : 2 ≤ fuel)
    (h0 : env b 0 = .ok i0 40) (h1 : env b 1 = .ok i1 40)
    (l0 : i0.length = 20) (l1 : i1.length = 20) :
    (acc.length = 0 →
      branchPages env b fuel 0 acc = (acc ++ i0 ++ i1, 2)) ∧
    (20 ≤ acc.length →
      branchPages env b fuel 0 acc = (acc ++ i0, 1)) := by
  obtain ⟨k, rfl⟩ : ∃ k, fuel = k + 2 := ⟨fuel - 2, by omega⟩
  constructor
  · intro ha
    have hi0 : (i0.length == 0) = false := by simp [l0]
    have hi1 : (i1.length == 0) = false := by simp [l1]
    have e0 : ¬ (40 ≤ acc.length + i0.length) := by omega
    have e1 : 40 ≤ acc.length + (i0.length + i1.length) := by omega
    simp [branchPages, h0, h1, hi0, hi1, e0, e1]
  · intro ha
    have hi0 : (i0.length == 0) = false := by simp [l0]
    have e0 : 40 ≤ acc.length + i0.length := by omega
    simp [branchPages, h0, hi0, e0]

/-- Witness for C2 (amended): branch 1 of `pagesTwoBranches` starting from an
empty accumulator fetches 2 pages; branch 2 starting from the 40 items branch
1 accumulated stops after 1 page. -/
theorem branchPages_stop_global_witness :
    branchPages pagesTwoBranches 1 2 0 [] =
      ([] ++ List.replicate 20 JValue.null ++ List.replicate 20 JValue.null, 2) ∧
    branchPages pagesTwoBranches 2 2 0 (List.replicate 40 JValue.null) =
      (List.replicate 40 JValue.null ++ List.replicate 20 JValue.null, 1) := by
  constructor
  · exact (branchPages_stop_global pagesTwoBranches 1 2 []
      (List.replicate 20 JValue.null) (List.replicate 20 JValue.null)
      (by decide) rfl rfl (by simp) (by simp)).1 rfl
  · exact (branchPages_stop_global pagesTwoBranches 2 2
      (List.replicate 40 JValue.null) (List.replicate 20 JValue.null)
      (List.replicate 20 JValue.null) (by decide) rfl rfl (by simp)
      (by simp)).2 (by simp)

/-- Helper: the trace of `make_authenticated_request` is one of three shapes
— just the first POST, the first POST plus the cache delete, or the first
POST, the cache delete, and the retried POST with the refreshed token. -/
theorem make_authenticated_request_trace_cases (env : AuthReqEnv)
    (url : String) (tok : Option String) (data : Option JValue)
    (params : List (String × String)) :
    (make_authenticated_request env url tok data params).2 =
      [.request ⟨.post, url, tok, data, params⟩] ∨
    (make_authenticated_request env url tok data params).2 =
      [.request ⟨.post, url, tok, data, params⟩, .cacheDel] ∨
    ∃ t, env.relogin = some t ∧
      (make_authenticated_request env url tok data params).2 =
        [.request ⟨.post, url, tok, data, params⟩, .cacheDel,
          .request ⟨.post, url, some t, data, params⟩] := by
  rcases h1 : env.first with r | _ | _
  · by_cases h4 : r.status = 401
    · rcases h2 : env.relogin with _ | t
      · right; left
        simp [make_authenticated_request, h1, h4, h2]
      · right; right
        refine ⟨t, rfl, ?_⟩
        rcases h3 : env.retry with r2 | _ | _ <;>
          simp [make_authenticated_request, h1, h4, h2, h3]
    · left
      simp [make_authenticated_request, h1, h4]
  · left
    simp [make_authenticated_request, h1]
  · left
    simp [make_authenticated_request, h1]

/-- Counterexample for C8: at a concrete cgi/index listing call, the trace of
`get_group_clients_from_crm` consists of a single request whose method is
POST, and POST is not GET — the listing is not issued with the HTTP GET
method. -/
theorem get_group_clients_method_counterexample :
    (get_group_clients_from_crm "http://crm" true (some "tok") cgiListEnv
        cgiLookupStub "5" (some "1")).2 =
      [.request ⟨.post, "http://crm/v2api/1/cgi/index", some "tok", none,
        [("group_id", "5")]⟩] ∧
    Method.post ≠ Method.get := by
  constructor
  · rfl
  · decide

/-- C8 (amended): the cgi/index listing call of `get_group_clients_from_crm`
is issued with the HTTP POST method (with `group_id` as a query parameter),
because `make_authenticated_request` performs every call via `requests.post`;
no request in the trace uses GET. -/
theorem get_group_clients_cgi_request_is_post (base : String) (apiKey : Bool)
    (lg : Option String) (cgiEnv : AuthReqEnv)
    (lookup : String → Option JValue) (gid b : String) (tok : String)
    (hb : (b == "") = false) (hkey : apiKey = true) (hlog : lg = some tok) :
    (∃ rest,
      (get_group_clients_from_crm base apiKey lg cgiEnv lookup gid
          (some b)).2 =
        .request ⟨.post, base ++ "/v2api/" ++ b ++ "/cgi/index", some tok,
          none, [("group_id", gid)]⟩ :: rest) ∧
    ∀ e ∈ (get_group_clients_from_crm base apiKey lg cgiEnv lookup gid
        (some b)).2, ∀ req, e = .request req → req.method = .post := by
  have htr : (get_group_clients_from_crm base apiKey lg cgiEnv lookup gid
      (some b)).2 =
      (make_authenticated_request cgiEnv
        (base ++ "/v2api/" ++ b ++ "/cgi/index") (some tok) none
        [("group_id", gid)]).2 := by
    simp [get_group_clients_from_crm, hb, hkey, hlog]
  rcases make_authenticated_request_trace_cases cgiEnv
      (base ++ "/v2api/" ++ b ++ "/cgi/index") (some tok) none
      [("group_id", gid)] with h | h | ⟨t, _, h⟩
  · rw [htr, h]
    refine ⟨⟨[], rfl⟩, ?_⟩
    intro e he req hreq
    subst hreq
    simp at he
    simp [he]
  · rw [htr, h]
    refine ⟨⟨[.cacheDel], rfl⟩, ?_⟩
    intro e he req hreq
    subst hreq
    simp at he
    simp [he]
  · rw [htr, h]
    refine ⟨⟨[.cacheDel,
      .request ⟨.post, base ++ "/v2api/" ++ b ++ "/cgi/index", some t, none,
        [("group_id", gid)]⟩], rfl⟩, ?_⟩
    intro e he req hreq
    subst hreq
    simp at he
    rcases he with he | he <;> simp [he]

/-- Witness for C8 (amended): the concrete cgi/index call issues its listing
request with POST. -/
theorem get_group_clients_cgi_request_is_post_witness :
    (∃ rest,
      (get_group_clients_from_crm "http://crm" true (some "tok") cgiListEnv
          cgiLookupStub "5" (some "1")).2 =
        .request ⟨.post, "http://crm" ++ "/v2api/" ++ "1" ++ "/cgi/index",
          some "tok", none, [("group_id", "5")]⟩ :: rest) ∧
    ∀ e ∈ (get_group_clients_from_crm "http://crm" true (some "tok")
        cgiListEnv cgiLookupStub "5" (some "1")).2,
      ∀ req, e = .request req → req.method = .post :=
  get_group_clients_cgi_request_is_post "http://crm" true (some "tok")
    cgiListEnv cgiLookupStub "5" "1" "tok" (by decide) rfl rfl

/-- Helper: a traversal whose elements all succeed computes the elementwise
map. -/
theorem traverseOption_eq_map (f : α → Option β) (g : α → β) :
    ∀ l : List α, (∀ a ∈ l, f a = some (g a)) →
      traverseOption f l = some (l.map g) := by
  intro l
  induction l with
  | nil => intro _; rfl
  | cons x xs ih =>
    intro h
    have hx : f x = some (g x) := h x (List.mem_cons_self x xs)
    have hxs := ih (fun a ha => h a (List.mem_cons_of_mem x ha))
    simp [traverseOption, hx, hxs]

/-- Helper: zipping a list with its elementwise image pairs each element with
its image. -/
theorem zip_self_map (g : α → β) :
    ∀ l : List α, l.zip (l.map g) = l.map (fun a => (a, g a)) := by
  intro l
  induction l with
  | nil => rfl
  | cons x xs ih => simp [ih]

/-- Helper: when every truthy lookup result is a dict, the per-id resolution
`resolveClientName` never raises and computes `clientNameOf`. -/
theorem resolveClientName_eq_clientNameOf (lookup : String → Option JValue)
    (cid : JValue)
    (hdict : ∀ cd, lookup (pyStr cid) = some cd → truthy cd = true →
      ∃ fs, cd = .obj fs) :
    resolveClientName lookup cid = some (clientNameOf lookup cid) := by
  unfold resolveClientName clientNameOf
  rcases hl : lookup (pyStr cid) with _ | cd
  · rfl
  · by_cases ht : truthy cd = true
    · obtain ⟨fs, rfl⟩ := hdict cd hl ht
      simp [ht, jGetD]
    · simp [ht]

/-- C5: for every id list the cgi endpoint returns, the result of
`get_group_clients_from_crm` has exactly one entry per customer id, in the
same order as the ids, each carrying the resolved display name — the
`name` field when the per-id lookup succeeds (with the fixed unknown-name
default when that field is absent), and the fixed placeholder
`"Клиент не найден"` when the lookup fails; one failed lookup affects only
its own entry. -/
theorem get_group_clients_one_entry_per_id (base : String) (apiKey : Bool)
    (lg : Option String) (cgiEnv : AuthReqEnv)
    (lookup : String → Option JValue) (gid b tok : String)
    (r : HttpResponse) (bodyv itemsv : JValue) (ids : List JValue)
    (hb : (b == "") = false) (hkey : apiKey = true) (hlog : lg = some tok)
    (hfirst : cgiEnv.first = .resp r) (h401 : r.status ≠ 401)
    (hok : r.status < 400) (hbody : r.body = some bodyv)
    (hitems : jGetD bodyv "items" (.arr []) = some itemsv)
    (hids : extractCustomerIds itemsv = some ids)
    (hdict : ∀ cid ∈ ids, ∀ cd, lookup (pyStr cid) = some cd →
      truthy cd = true → ∃ fs, cd = .obj fs) :
    (get_group_clients_from_crm base apiKey lg cgiEnv lookup gid
        (some b)).1 =
      some (ids.map (fun cid => (cid, clientNameOf lookup cid))) := by
  have hreq : make_authenticated_request cgiEnv
      (base ++ "/v2api/" ++ b ++ "/cgi/index") (some tok) none
      [("group_id", gid)] =
      (.ok r, [.request ⟨.post, base ++ "/v2api/" ++ b ++ "/cgi/index",
        some tok, none, [("group_id", gid)]⟩]) := by
    simp [make_authenticated_request, hfirst, h401]
  have hnames : traverseOption (resolveClientName lookup) ids =
      some (ids.map (clientNameOf lookup)) :=
    traverseOption_eq_map _ _ ids
      (fun cid hcid => resolveClientName_eq_clientNameOf lookup cid
        (hdict cid hcid))
  have h400 : ¬ (400 ≤ r.status) := by omega
  simp [get_group_clients_from_crm, hb, hkey, hlog, hreq, cgiResult, h400,
    hbody, hitems, hids, hnames, zip_self_map]

/-- Witness for C5: the concrete listing of customers 5 and 6, where 5
resolves to its display name and 6 fails and receives the placeholder. -/
theorem get_group_clients_one_entry_per_id_witness :
    (get_group_clients_from_crm "http://crm" true (some "tok") cgiListEnv
        cgiLookupStub "5" (some "1")).1 =
      some [(.num 5, .str "Сергей"), (.num 6, .str "Клиент не найден")] := by
  have h := get_group_clients_one_entry_per_id "http://crm" true (some "tok")
    cgiListEnv cgiLookupStub "5" "1" "tok"
    ⟨200, some (.obj [("items", .arr
      [.obj [("customer_id", .num 5)], .obj [("customer_id", .num 6)]])])⟩
    (.obj [("items", .arr
      [.obj [("customer_id", .num 5)], .obj [("customer_id", .num 6)]])])
    (.arr [.obj [("customer_id", .num 5)], .obj [("customer_id", .num 6)]])
    [.num 5, .num 6] (by decide) rfl rfl rfl (by decide) (by decide) rfl
    (by decide) (by decide)
    (by
      intro cid hcid cd hcd htr
      simp only [List.mem_cons, List.not_mem_nil, or_false] at hcid
      rcases hcid with rfl | rfl
      · have h5 : cgiLookupStub (pyStr (JValue.num 5)) =
            some (.obj [("name", .str "Сергей")]) := by decide
        rw [h5] at hcd
        exact ⟨[("name", .str "Сергей")], (Option.some.inj hcd).symm⟩
      · have h6 : cgiLookupStub (pyStr (JValue.num 6)) = none := by decide
        rw [h6] at hcd
        cases hcd)
  rw [h]
  decide

/-- Helper: a group's upsert key being among the stored keys is the
`get_or_create` hit condition. -/
theorem any_eq_true_iff_mem_groupKeys (db : List GroupRow) (i : Int) :
    db.any (fun r => r.crm_group_id == i) = true ↔ i ∈ groupKeys db := by
  unfold groupKeys
  rw [List.any_eq_true]
  constructor
  · rintro ⟨r, hr, hid⟩
    exact List.mem_map.2 ⟨r, hr, by simpa using hid⟩
  · intro h
    obtain ⟨r, hr, hid⟩ := List.mem_map.1 h
    exact ⟨r, hr, by simp [hid]⟩

/-- Helper: upserting an item whose key is already stored rewrites rows in
place and leaves the key list unchanged. -/
theorem groupKeys_upsert_hit (db : List GroupRow) (it : GroupItem)
    (h : db.any (fun r => r.crm_group_id == it.id) = true) :
    groupKeys (upsertGroup db it) = groupKeys db := by
  unfold upsertGroup groupKeys
  rw [if_pos h, List.map_map]
  apply List.map_congr_left
  intro r _
  by_cases hr : r.crm_group_id = it.id
  · simp [hr, groupRowOfItem, groupSave]
  · simp [hr]

/-- Helper: upserting an item with a new key appends that key. -/
theorem groupKeys_upsert_miss (db : List GroupRow) (it : GroupItem)
    (h : db.any (fun r => r.crm_group_id == it.id) = false) :
    groupKeys (upsertGroup db it) = groupKeys db ++ [it.id] := by
  unfold upsertGroup groupKeys
  rw [if_neg (by simp [h])]
  simp [groupRowOfItem, groupSave]

/-- Helper: after an upsert the item's key is stored. -/
theorem mem_groupKeys_upsert (db : List GroupRow) (it : GroupItem) :
    it.id ∈ groupKeys (upsertGroup db it) := by
  cases hany : db.any (fun r => r.crm_group_id == it.id)
  · rw [groupKeys_upsert_miss db it hany]
    simp
  · rw [groupKeys_upsert_hit db it hany]
    exact (any_eq_true_iff_mem_groupKeys db it.id).1 hany

/-- Helper: an upsert never removes a stored key. -/
theorem mem_groupKeys_upsert_of_mem (db : List GroupRow) (it : GroupItem)
    (x : Int) (h : x ∈ groupKeys db) : x ∈ groupKeys (upsertGroup db it) := by
  cases hany : db.any (fun r => r.crm_group_id == it.id)
  · rw [groupKeys_upsert_miss db it hany]
    exact List.mem_append_left _ h
  · rw [groupKeys_upsert_hit db it hany]
    exact h

/-- Helper: the counting fold of `syncGroups` is the plain upsert fold paired
with the item count. -/
theorem syncGroups_foldl (items : List GroupItem) :
    ∀ (db : List GroupRow) (n : Nat),
      items.foldl (fun st it => (upsertGroup st.1 it, st.2 + 1)) (db, n) =
        (items.foldl upsertGroup db, n + items.length) := by
  induction items with
  | nil => intro db n; simp
  | cons it rest ih =>
    intro db n
    rw [List.foldl_cons, List.foldl_cons, ih (upsertGroup db it) (n + 1)]
    simp
    omega

/-- Helper: the upsert fold never removes a stored key. -/
theorem mem_groupKeys_foldl_of_mem (items : List GroupItem) :
    ∀ (db : List GroupRow) (x : Int), x ∈ groupKeys db →
      x ∈ groupKeys (items.foldl upsertGroup db) := by
  induction items with
  | nil => intro db x h; exact h
  | cons it rest ih =>
    intro db x h
    exact ih (upsertGroup db it) x (mem_groupKeys_upsert_of_mem db it x h)

/-- Helper: after the upsert fold, every processed item's key is stored. -/
theorem item_mem_groupKeys_foldl (items : List GroupItem) :
    ∀ (db : List GroupRow) (it : GroupItem), it ∈ items →
      it.id ∈ groupKeys (items.foldl upsertGroup db) := by
  induction items with
  | nil => intro _ _ h; cases h
  | cons jt rest ih =>
    intro db it hmem
    rcases List.mem_cons.1 hmem with rfl | hmem
    · exact mem_groupKeys_foldl_of_mem rest (upsertGroup db it) it.id
        (mem_groupKeys_upsert db it)
    · exact ih (upsertGroup db jt) it hmem

/-- Helper: folding items whose keys are all already stored leaves the key
list unchanged. -/
theorem groupKeys_foldl_of_all_mem (items : List GroupItem) :
    ∀ (db : List GroupRow), (∀ it ∈ items, it.id ∈ groupKeys db) →
      groupKeys (items.foldl upsertGroup db) = groupKeys db := by
  induction items with
  | nil => intro db _; rfl
  | cons jt rest ih =>
    intro db h
    have hjt : jt.id ∈ groupKeys db := h jt (List.mem_cons_self jt rest)
    have hkeys : groupKeys (upsertGroup db jt) = groupKeys db :=
      groupKeys_upsert_hit db jt ((any_eq_true_iff_mem_groupKeys db jt.id).2 hjt)
    rw [List.foldl_cons, ih (upsertGroup db jt)
      (fun it hit => hkeys ▸ h it (List.mem_cons_of_mem jt hit)), hkeys]

/-- C3: running the group sync twice on identical CRM data creates no
additional Group rows — the second run leaves the list of stored CRM group
keys unchanged — and each run reports a processed count equal to the number
of CRM items. -/
theorem syncGroups_idempotent_keys (db : List GroupRow)
    (items : List GroupItem) :
    groupKeys (syncGroups (syncGroups db items).1 items).1 =
      groupKeys (syncGroups db items).1 ∧
    (syncGroups (syncGroups db items).1 items).2 = items.length ∧
    (syncGroups db items).2 = items.length := by
  have h1 : syncGroups db items = (items.foldl upsertGroup db, items.length) := by
    rw [syncGroups, syncGroups_foldl items db 0, Nat.zero_add]
  have h2 : syncGroups (items.foldl upsertGroup db) items =
      (items.foldl upsertGroup (items.foldl upsertGroup db), items.length) := by
    rw [syncGroups, syncGroups_foldl items _ 0, Nat.zero_add]
  rw [h1, h2]
  refine ⟨?_, rfl, rfl⟩
  exact groupKeys_foldl_of_all_mem items (items.foldl upsertGroup db)
    (fun it hit => item_mem_groupKeys_foldl items db it hit)

/-- C7: registering a tutor whose CRM teacher record carries id 42 stores one
TutorProfile row with `tutor_crm_id = 42` and `is_senior = false`; a second
registration with the same phone is rejected with the 400 "phone already
registered" response and the table is unchanged. -/
theorem register_tutor_scenario (db : List TutorRow) (phone branch : String)
    (crm : String → String → Option JValue) (fs : List (String × JValue))
    (hp1 : pyStrip phone = phone) (hp2 : phone ≠ "") (hp3 : phone.length ≤ 20)
    (hb1 : pyStrip branch = branch) (hb2 : branch ≠ "")
    (hb3 : branch.length ≤ 255)
    (hdb : ∀ r ∈ db, r.phone_number ≠ phone)
    (hcrm : crm phone branch = some (.obj fs))
    (hid : jGet (.obj fs) "id" = some (.num 42)) :
    ∃ row, register_tutor db (some phone) (some branch) crm =
        (.created row, db ++ [row]) ∧
      row.tutor_crm_id = some 42 ∧ row.is_senior = false ∧
      row.phone_number = phone ∧
      register_tutor (db ++ [row]) (some phone) (some branch) crm =
        (.phoneAlreadyRegistered, db ++ [row]) := by
  have h20 : ¬ (20 < phone.length) := by omega
  have h255 : ¬ (255 < branch.length) := by omega
  have hany : (db.any fun r => r.phone_number == phone) = false := by
    rw [List.any_eq_false]
    intro r hr
    simpa using hdb r hr
  have hfs : fs ≠ [] := by
    intro h
    subst h
    simp [jGet] at hid
  have htr : truthy (.obj fs) = true := by
    cases fs with
    | nil => exact absurd rfl hfs
    | cons a l => rfl
  have h42 : parseCrmId (JValue.num 42) = some 42 := by decide
  refine ⟨tutorProfileSave
    { tutor_crm_id := parseCrmId ((jGet (.obj fs) "id").getD .null)
      tutor_name := (jGet (.obj fs) "name").getD .null
      branch := branch
      is_senior := false
      phone_number := phone
      branch_ids := (jGet (.obj fs) "branch_ids").getD .null
      dob := (jGet (.obj fs) "dob").getD .null
      gender := (jGet (.obj fs) "gender").getD .null
      streaming_id := (jGet (.obj fs) "streaming_id").getD .null
      note := (jGet (.obj fs) "note").getD .null
      e_date := (jGet (.obj fs) "e_date").getD .null
      avatar_url := (jGet (.obj fs) "avatar_url").getD .null
      phone := (jGet (.obj fs) "phone").getD .null
      email := (jGet (.obj fs) "email").getD .null
      web := (jGet (.obj fs) "web").getD .null
      addr := (jGet (.obj fs) "addr").getD .null
      teacher_to_skill := (jGet (.obj fs) "teacher-to-skill").getD .null },
    ?_, ?_, ?_, ?_, ?_⟩
  · simp [register_tutor, hp1, hb1, hp2, hb2, h20, h255, hany, hcrm, htr]
  · simp [tutorProfileSave, hid, h42]
  · rfl
  · rfl
  · have hany2 : ((db ++ [tutorProfileSave
        { tutor_crm_id := parseCrmId ((jGet (.obj fs) "id").getD .null)
          tutor_name := (jGet (.obj fs) "name").getD .null
          branch := branch
          is_senior := false
          phone_number := phone
          branch_ids := (jGet (.obj fs) "branch_ids").getD .null
          dob := (jGet (.obj fs) "dob").getD .null
          gender := (jGet (.obj fs) "gender").getD .null
          streaming_id := (jGet (.obj fs) "streaming_id").getD .null
          note := (jGet (.obj fs) "note").getD .null
          e_date := (jGet (.obj fs) "e_date").getD .null
          avatar_url := (jGet (.obj fs) "avatar_url").getD .null
          phone := (jGet (.obj fs) "phone").getD .null
          email := (jGet (.obj fs) "email").getD .null
          web := (jGet (.obj fs) "web").getD .null
          addr := (jGet (.obj fs) "addr").getD .null
          teacher_to_skill := (jGet (.obj fs) "teacher-to-skill").getD .null
        }]).any fun r => r.phone_number == phone) = true := by
      simp [tutorProfileSave]
    simp [register_tutor, hp1, hb1, hp2, hb2, h20, h255, hany2]

/-- Witness for C7: the concrete registration of phone `"+375447123218"` at
branch `"1"` against `regCrmStub`, followed by the rejected duplicate. -/
theorem register_tutor_scenario_witness :
    ∃ row, register_tutor [] (some "+375447123218") (some "1") regCrmStub =
        (.created row, [] ++ [row]) ∧
      row.tutor_crm_id = some 42 ∧ row.is_senior = false ∧
      row.phone_number = "+375447123218" ∧
      register_tutor ([] ++ [row]) (some "+375447123218") (some "1")
        regCrmStub = (.phoneAlreadyRegistered, [] ++ [row]) :=
  register_tutor_scenario [] "+375447123218" "1" regCrmStub
    [("id", .num 42), ("name", .str "Тестовый Преподаватель")]
    (by decide) (by decide) (by decide) (by decide) (by decide) (by decide)
    (by intro r hr; cases hr) (by decide) (by decide)

/-- C10: for every authenticated request to the group-clients endpoint, a
missing, non-integer, or unknown `group_id` yields the same 200 response
body `{"clients": []}` as an existing group with no students, and the
endpoint never returns an error status for an unknown group — every
authenticated response is a 200. -/
theorem get_group_clients_view_soft_fail (groups : List (Nat × Int))
    (students : List StudentRow) (param : Option String) :
    (param = none →
      get_group_clients_view true param groups students = .okEmpty) ∧
    (∀ s, param = some s → pyIntOfString s = none →
      get_group_clients_view true param groups students = .okEmpty) ∧
    (∀ s g, param = some s → pyIntOfString s = some g →
      groups.find? (fun p => p.2 == g) = none →
      get_group_clients_view true param groups students = .okEmpty) ∧
    (∀ s g grp, param = some s → pyIntOfString s = some g →
      groups.find? (fun p => p.2 == g) = some grp →
      (∀ st ∈ students, st.group_pk ≠ some grp.1) →
      get_group_clients_view true param groups students = .okEmpty) ∧
    (get_group_clients_view true param groups students = .okEmpty ∨
      ∃ entries,
        get_group_clients_view true param groups students = .ok entries) := by
  refine ⟨?_, ?_, ?_, ?_, ?_⟩
  · intro h
    subst h
    have h0 : pyIntOfString "" = none := by decide
    simp [get_group_clients_view, h0]
  · intro s hs hparse
    subst hs
    simp [get_group_clients_view, hparse]
  · intro s g hs hparse hfind
    subst hs
    simp [get_group_clients_view, hparse, hfind]
  · intro s g grp hs hparse hfind hempty
    subst hs
    simp [get_group_clients_view, hparse, hfind]
    exact fun x hx => hempty x hx
  · rcases hp : pyIntOfString (param.getD "") with _ | g
    · left
      simp [get_group_clients_view, hp]
    · rcases hf : groups.find? (fun p => p.2 == g) with _ | grp
      · left
        simp [get_group_clients_view, hp, hf]
      · by_cases he : ((students.filter
            (fun st => st.group_pk == some grp.1)).map
            (fun s => (s.student_crm_id, s.student_name))).isEmpty = true
        · left
          simp [get_group_clients_view, hp, hf, he]
        · right
          exact ⟨(students.filter (fun st => st.group_pk == some grp.1)).map
              (fun s => (s.student_crm_id, s.student_name)),
            by simp [get_group_clients_view, hp, hf, he]⟩

/-- Witness for C10: with one stored group (pk 1, CRM id 10) and no
students, an unknown `group_id`, a malformed one, a missing one, and the
existing-but-empty group all answer `{"clients": []}`. -/
theorem get_group_clients_view_soft_fail_witness :
    get_group_clients_view true (some "999") [(1, 10)] [] = .okEmpty ∧
    get_group_clients_view true (some "abc") [(1, 10)] [] = .okEmpty ∧
    get_group_clients_view true none [(1, 10)] [] = .okEmpty ∧
    get_group_clients_view true (some "10") [(1, 10)] [] = .okEmpty := by
  refine ⟨?_, ?_, ?_, ?_⟩
  · exact (get_group_clients_view_soft_fail [(1, 10)] [] (some "999")).2.2.1
      "999" 999 rfl (by decide) (by decide)
  · exact (get_group_clients_view_soft_fail [(1, 10)] [] (some "abc")).2.1
      "abc" rfl (by decide)
  · exact (get_group_clients_view_soft_fail [(1, 10)] [] none).1 rfl
  · exact (get_group_clients_view_soft_fail [(1, 10)] [] (some "10")).2.2.2.1
      "10" 10 ⟨1, 10⟩ rfl (by decide) (by decide) (by decide)

/-- Helper: any row of an upsert result carrying the upserted item's key is
the row written for that item. -/
theorem upsertGroup_row_of_key (db : List GroupRow) (it : GroupItem)
    (r : GroupRow) (hr : r ∈ upsertGroup db it)
    (hid : r.crm_group_id = it.id) : r = groupRowOfItem it := by
  unfold upsertGroup at hr
  by_cases hany : (db.any fun r => r.crm_group_id == it.id) = true
  · rw [if_pos hany] at hr
    obtain ⟨r0, hr0, heq⟩ := List.mem_map.1 hr
    by_cases h0 : r0.crm_group_id = it.id
    · rw [if_pos (by simpa using h0)] at heq
      exact heq.symm
    · rw [if_neg (by simpa using h0)] at heq
      subst heq
      exact absurd hid h0
  · rw [if_neg hany] at hr
    have hany' : (db.any fun r => r.crm_group_id == it.id) = false :=
      eq_false_of_ne_true hany
    rcases List.mem_append.1 hr with h | h
    · exfalso
      exact absurd (by simpa using hid)
        (List.any_eq_false.1 hany' r h)
    · simpa using h

/-- Helper: upserting an item with a different key neither creates nor
modifies rows carrying the key of interest. -/
theorem upsertGroup_row_other (db : List GroupRow) (jt : GroupItem) (i : Int)
    (r : GroupRow) (hr : r ∈ upsertGroup db jt) (hid : r.crm_group_id = i)
    (hne : jt.id ≠ i) : r ∈ db := by
  unfold upsertGroup at hr
  by_cases hany : (db.any fun r => r.crm_group_id == jt.id) = true
  · rw [if_pos hany] at hr
    obtain ⟨r0, hr0, heq⟩ := List.mem_map.1 hr
    by_cases h0 : r0.crm_group_id = jt.id
    · rw [if_pos (by simpa using h0)] at heq
      subst heq
      exact absurd hid hne
    · rw [if_neg (by simpa using h0)] at heq
      subst heq
      exact hr0
  · rw [if_neg hany] at hr
    rcases List.mem_append.1 hr with h | h
    · exact h
    · exfalso
      have : r = groupRowOfItem jt := by simpa using h
      subst this
      exact hne hid

/-- Helper: folding items none of which carries the key of interest leaves
the rows with that key untouched. -/
theorem foldl_row_stable (items : List GroupItem) :
    ∀ (db : List GroupRow) (i : Int) (r : GroupRow),
      (∀ jt ∈ items, jt.id ≠ i) → r ∈ items.foldl upsertGroup db →
      r.crm_group_id = i → r ∈ db := by
  induction items with
  | nil => intro db i r _ hr _; exact hr
  | cons jt rest ih =>
    intro db i r hne hr hid
    have h1 : r ∈ upsertGroup db jt :=
      ih (upsertGroup db jt) i r
        (fun kt hkt => hne kt (List.mem_cons_of_mem jt hkt)) hr hid
    exact upsertGroup_row_other db jt i r h1 hid
      (hne jt (List.mem_cons_self jt rest))

/-- Helper: with pairwise-distinct item keys, the row stored under an item's
key after the sync fold is exactly the row written for that item. -/
theorem foldl_row_of_key (items : List GroupItem) :
    ∀ (db : List GroupRow) (it : GroupItem) (r : GroupRow),
      (items.map GroupItem.id).Nodup → it ∈ items →
      r ∈ items.foldl upsertGroup db → r.crm_group_id = it.id →
      r = groupRowOfItem it := by
  induction items with
  | nil => intro _ _ _ _ h; cases h
  | cons jt rest ih =>
    intro db it r hnd hmem hr hid
    have hnd0 : jt.id ∉ rest.map GroupItem.id ∧ (rest.map GroupItem.id).Nodup := by
      rw [List.map_cons] at hnd
      exact List.nodup_cons.1 hnd
    rcases List.mem_cons.1 hmem with rfl | hmem
    · have hnotin : ∀ kt ∈ rest, kt.id ≠ it.id := by
        intro kt hkt heq
        exact hnd0.1 (List.mem_map.2 ⟨kt, hkt, heq⟩)
      have hr' : r ∈ upsertGroup db it :=
        foldl_row_stable rest (upsertGroup db it) it.id r hnotin hr hid
      exact upsertGroup_row_of_key db it r hr' hid
    · exact ih (upsertGroup db jt) it r hnd0.2 hmem hr hid

/-- Helper: the first element of a list is structurally smaller than the
array holding the list, so the collapse of a long array never equals the
array itself. -/
theorem collapseFirst_ne_long_arr (xs : List JValue) (h2 : 2 ≤ xs.length) :
    collapseFirst (.arr xs) ≠ .arr xs := by
  cases xs with
  | nil => simp at h2
  | cons x rest =>
    have hs : sizeOf x < sizeOf (JValue.arr (x :: rest)) := by
      have h1 := List.sizeOf_lt_of_mem (List.mem_cons_self x rest)
      simp only [JValue.arr.sizeOf_spec]
      omega
    by_cases ht : truthy x = true
    · intro heq
      rw [show collapseFirst (.arr (x :: rest)) = x by simp [collapseFirst, ht]]
        at heq
      have hcontra := congrArg sizeOf heq
      omega
    · intro heq
      rw [show collapseFirst (.arr (x :: rest)) = .null by
        simp [collapseFirst, ht]] at heq
      cases heq

/-- C9: every Group save collapses a nonempty list-valued `branch_ids` or
`teacher_ids` to its first element (null when that element is falsy), every
TutorProfile save collapses `phone`, `email`, `web` and `addr` the same way,
and after a group sync with distinct CRM ids the stored row of an item whose
CRM array has two or more elements never equals that array. -/
theorem save_collapse_behavior :
    (∀ (x : JValue) (xs : List JValue),
      collapseFirst (.arr (x :: xs)) = if truthy x then x else .null) ∧
    (∀ r : GroupRow, (groupSave r).branch_ids = collapseFirst r.branch_ids ∧
      (groupSave r).teacher_ids = collapseFirst r.teacher_ids) ∧
    (∀ r : TutorRow, (tutorProfileSave r).phone = collapseFirst r.phone ∧
      (tutorProfileSave r).email = collapseFirst r.email ∧
      (tutorProfileSave r).web = collapseFirst r.web ∧
      (tutorProfileSave r).addr = collapseFirst r.addr) ∧
    (∀ (db : List GroupRow) (items : List GroupItem) (it : GroupItem)
      (r : GroupRow), (items.map GroupItem.id).Nodup → it ∈ items →
      r ∈ (syncGroups db items).1 → r.crm_group_id = it.id →
      r.branch_ids = collapseFirst it.branch_ids ∧
      r.teacher_ids = collapseFirst it.teacher_ids ∧
      (∀ xs, it.branch_ids = .arr xs → 2 ≤ xs.length →
        r.branch_ids ≠ it.branch_ids) ∧
      (∀ xs, it.teacher_ids = .arr xs → 2 ≤ xs.length →
        r.teacher_ids ≠ it.teacher_ids)) := by
  refine ⟨fun x xs => rfl, fun r => ⟨rfl, rfl⟩, fun r => ⟨rfl, rfl, rfl, rfl⟩,
    ?_⟩
  intro db items it r hnd hmem hr hid
  have hfold : (syncGroups db items).1 = items.foldl upsertGroup db := by
    rw [syncGroups, syncGroups_foldl items db 0]
  rw [hfold] at hr
  have hrow : r = groupRowOfItem it := foldl_row_of_key items db it r hnd hmem hr hid
  subst hrow
  refine ⟨rfl, rfl, ?_, ?_⟩
  · intro xs hxs h2
    rw [show (groupRowOfItem it).branch_ids = collapseFirst it.branch_ids
      from rfl, hxs]
    exact collapseFirst_ne_long_arr xs h2
  · intro xs hxs h2
    rw [show (groupRowOfItem it).teacher_ids = collapseFirst it.teacher_ids
      from rfl, hxs]
    exact collapseFirst_ne_long_arr xs h2

/-- Witness for C9: the synced row of `collapseItem` stores the collapsed
first elements and differs from the CRM arrays. -/
theorem save_collapse_behavior_witness :
    (groupRowOfItem collapseItem).branch_ids =
      collapseFirst collapseItem.branch_ids ∧
    (groupRowOfItem collapseItem).branch_ids ≠ collapseItem.branch_ids ∧
    (groupRowOfItem collapseItem).teacher_ids ≠ collapseItem.teacher_ids := by
  have h := save_collapse_behavior.2.2.2 [] [collapseItem] collapseItem
    (groupRowOfItem collapseItem) (by decide) (by decide) (by decide) rfl
  exact ⟨h.1, by
    have := h.2.2.1 [.num 1, .num 2] rfl (by decide)
    simpa using this, by
    have := h.2.2.2 [.num 3, .num 4] rfl (by decide)
    simpa using this⟩

/-- Helper: repointing never changes a row's customer id. -/
theorem repointStudent_cid (cid : JValue) (gpk : Nat) (r : StudentRow) :
    (repointStudent cid gpk r).student_crm_id = r.student_crm_id := by
  by_cases h1 : (r.student_crm_id == cid) = true
  · by_cases h2 : r.group_pk = some gpk <;> simp [repointStudent, h1, h2]
  · simp [repointStudent, h1]

/-- Helper: repointing is the identity on rows with a different customer
id. -/
theorem repointStudent_eq_of_ne (cid : JValue) (gpk : Nat) (r : StudentRow)
    (h : (r.student_crm_id == cid) = false) :
    repointStudent cid gpk r = r := by
  simp [repointStudent, h]

/-- Helper: a repointed matching row points at the current group. -/
theorem repointStudent_pk (cid : JValue) (gpk : Nat) (r : StudentRow)
    (h : r.student_crm_id = cid) :
    (repointStudent cid gpk r).group_pk = some gpk := by
  by_cases h2 : r.group_pk = some gpk <;> simp [repointStudent, h, h2]

/-- Helper: repointing one customer id leaves the rows stored under another
id untouched. -/
theorem rowsWithCid_map_repoint_other (cid c : JValue) (gpk : Nat)
    (hne : cid ≠ c) :
    ∀ db : List StudentRow,
      rowsWithCid (db.map (repointStudent cid gpk)) c = rowsWithCid db c := by
  intro db
  induction db with
  | nil => rfl
  | cons r rest ih =>
    rw [List.map_cons]
    unfold rowsWithCid at ih ⊢
    rw [List.filter_cons, List.filter_cons, repointStudent_cid]
    by_cases h1 : r.student_crm_id = c
    · have hf : repointStudent cid gpk r = r := by
        apply repointStudent_eq_of_ne
        rw [h1]
        exact beq_eq_false_iff_ne.2 (fun h => hne h.symm)
      simp [h1, hf, ih]
    · simp [h1, ih]

/-- Helper: repointing a customer id maps exactly over its stored rows. -/
theorem rowsWithCid_map_repoint_self (cid : JValue) (gpk : Nat) :
    ∀ db : List StudentRow,
      rowsWithCid (db.map (repointStudent cid gpk)) cid =
        (rowsWithCid db cid).map (repointStudent cid gpk) := by
  intro db
  induction db with
  | nil => rfl
  | cons r rest ih =>
    rw [List.map_cons]
    unfold rowsWithCid at ih ⊢
    rw [List.filter_cons, List.filter_cons, repointStudent_cid]
    by_cases h1 : r.student_crm_id = cid
    · simp [h1, ih]
    · simp [h1, ih]

/-- Helper: appending a row for another id leaves the rows of this id
unchanged. -/
theorem rowsWithCid_append_other (db : List StudentRow) (cid cname : JValue)
    (gpk : Nat) (c : JValue) (hne : cid ≠ c) :
    rowsWithCid (db ++ [⟨cid, cname, some gpk⟩]) c = rowsWithCid db c := by
  unfold rowsWithCid
  rw [List.filter_append]
  simp [hne]

/-- Helper: appending a row for this id appends it to its stored rows. -/
theorem rowsWithCid_append_self (db : List StudentRow) (cid cname : JValue)
    (gpk : Nat) :
    rowsWithCid (db ++ [⟨cid, cname, some gpk⟩]) cid =
      rowsWithCid db cid ++ [⟨cid, cname, some gpk⟩] := by
  unfold rowsWithCid
  rw [List.filter_append]
  simp

/-- Helper: upserting one customer id leaves the rows of another id exactly
as they were. -/
theorem rowsWithCid_upsert_other (db : List StudentRow) (cid cname : JValue)
    (gpk : Nat) (c : JValue) (hne : cid ≠ c) :
    rowsWithCid (upsertStudent db cid cname gpk) c = rowsWithCid db c := by
  unfold upsertStudent
  by_cases hany : (db.any fun r => r.student_crm_id == cid) = true
  · rw [if_pos hany]
    exact rowsWithCid_map_repoint_other cid c gpk hne db
  · rw [if_neg hany]
    exact rowsWithCid_append_other db cid cname gpk c hne

/-- Helper: after upserting a customer id over a table holding at most one
row for it, exactly one row is stored under it and it points at the current
group. -/
theorem rowsWithCid_upsert_self (db : List StudentRow) (cid cname : JValue)
    (gpk : Nat) (hlen : (rowsWithCid db cid).length ≤ 1) :
    (rowsWithCid (upsertStudent db cid cname gpk) cid).length = 1 ∧
    ∀ r ∈ rowsWithCid (upsertStudent db cid cname gpk) cid,
      r.group_pk = some gpk := by
  unfold upsertStudent
  by_cases hany : (db.any fun r => r.student_crm_id == cid) = true
  · rw [if_pos hany, rowsWithCid_map_repoint_self]
    constructor
    · rw [List.length_map]
      have hne : rowsWithCid db cid ≠ [] := by
        obtain ⟨r, hr, hb⟩ := List.any_eq_true.1 hany
        intro hnil
        have hmem : r ∈ rowsWithCid db cid := List.mem_filter.2 ⟨hr, hb⟩
        rw [hnil] at hmem
        cases hmem
      have hpos : 0 < (rowsWithCid db cid).length :=
        List.length_pos.2 hne
      omega
    · intro r hr
      obtain ⟨r0, hr0, rfl⟩ := List.mem_map.1 hr
      have hc : r0.student_crm_id = cid := by
        simpa using (List.mem_filter.1 hr0).2
      exact repointStudent_pk cid gpk r0 hc
  · rw [if_neg hany]
    have hnil : rowsWithCid db cid = [] := by
      have hany' : (db.any fun r => r.student_crm_id == cid) = false :=
        eq_false_of_ne_true hany
      unfold rowsWithCid
      rw [List.filter_eq_nil_iff]
      intro r hr
      simpa using List.any_eq_false.1 hany' r hr
    rw [rowsWithCid_append_self, hnil]
    refine ⟨rfl, ?_⟩
    intro r hr
    have : r = ⟨cid, cname, some gpk⟩ := by simpa using hr
    rw [this]

/-- Helper: one unfolding step of the client loop. -/
theorem syncGroupClients_cons (gpk : Nat) (e : JValue × JValue)
    (rest : List (JValue × JValue)) (st : List StudentRow × Nat) :
    syncGroupClients gpk (e :: rest) st =
      syncGroupClients gpk rest
        (if (truthy e.1 && truthy e.2) = true then
          (upsertStudent st.1 e.1 e.2 gpk, st.2 + 1) else st) := rfl

/-- Helper: a client loop containing no well-formed entry for a customer id
leaves that id's rows exactly as they were. -/
theorem syncGroupClients_no_entry (gpk : Nat) (c : JValue) :
    ∀ (clients : List (JValue × JValue)) (st : List StudentRow × Nat),
      (∀ e ∈ clients, e.1 = c →
        ¬(truthy e.1 = true ∧ truthy e.2 = true)) →
      rowsWithCid (syncGroupClients gpk clients st).1 c =
        rowsWithCid st.1 c := by
  intro clients
  induction clients with
  | nil => intro st _; rfl
  | cons e rest ih =>
    intro st h
    rw [syncGroupClients_cons]
    by_cases he : (truthy e.1 && truthy e.2) = true
    · have hne : e.1 ≠ c := by
        intro hec
        have hpair : truthy e.1 = true ∧ truthy e.2 = true := by
          rw [Bool.and_eq_true] at he
          exact he
        exact h e (List.mem_cons_self e rest) hec hpair
      rw [if_pos he]
      rw [ih (upsertStudent st.1 e.1 e.2 gpk, st.2 + 1)
        (fun a ha => h a (List.mem_cons_of_mem e ha))]
      exact rowsWithCid_upsert_other st.1 e.1 e.2 gpk c hne
    · rw [if_neg he]
      exact ih st (fun a ha => h a (List.mem_cons_of_mem e ha))

/-- Helper: once exactly one row is stored for a customer id and it points at
the current group, the rest of that group's client loop keeps it so. -/
theorem syncGroupClients_maintain (gpk : Nat) (c : JValue) :
    ∀ (clients : List (JValue × JValue)) (st : List StudentRow × Nat),
      (rowsWithCid st.1 c).length = 1 →
      (∀ r ∈ rowsWithCid st.1 c, r.group_pk = some gpk) →
      (rowsWithCid (syncGroupClients gpk clients st).1 c).length = 1 ∧
      ∀ r ∈ rowsWithCid (syncGroupClients gpk clients st).1 c,
        r.group_pk = some gpk := by
  intro clients
  induction clients with
  | nil => intro st h1 h2; exact ⟨h1, h2⟩
  | cons e rest ih =>
    intro st h1 h2
    rw [syncGroupClients_cons]
    by_cases he : (truthy e.1 && truthy e.2) = true
    · rw [if_pos he]
      by_cases hec : e.1 = c
      · subst hec
        have hup := rowsWithCid_upsert_self st.1 e.1 e.2 gpk (by omega)
        exact ih (upsertStudent st.1 e.1 e.2 gpk, st.2 + 1) hup.1 hup.2
      · have hrw := rowsWithCid_upsert_other st.1 e.1 e.2 gpk c hec
        exact ih (upsertStudent st.1 e.1 e.2 gpk, st.2 + 1)
          (by rw [hrw]; exact h1) (by rw [hrw]; exact h2)
    · rw [if_neg he]
      exact ih st h1 h2

/-- Helper: a client loop containing a well-formed entry for a customer id
leaves exactly one row stored for it, pointing at the current group. -/
theorem syncGroupClients_establish (gpk : Nat) (c : JValue) :
    ∀ (clients : List (JValue × JValue)) (st : List StudentRow × Nat),
      (rowsWithCid st.1 c).length ≤ 1 →
      (∃ e ∈ clients, e.1 = c ∧ truthy e.1 = true ∧ truthy e.2 = true) →
      (rowsWithCid (syncGroupClients gpk clients st).1 c).length = 1 ∧
      ∀ r ∈ rowsWithCid (syncGroupClients gpk clients st).1 c,
        r.group_pk = some gpk := by
  intro clients
  induction clients with
  | nil =>
    intro st _ hex
    obtain ⟨e, he, _⟩ := hex
    cases he
  | cons e rest ih =>
    intro st hlen hex
    rw [syncGroupClients_cons]
    by_cases hc : e.1 = c ∧ truthy e.1 = true ∧ truthy e.2 = true
    · obtain ⟨hec, ht1, ht2⟩ := hc
      rw [if_pos (by rw [ht1, ht2]; rfl)]
      subst hec
      have hup := rowsWithCid_upsert_self st.1 e.1 e.2 gpk hlen
      exact syncGroupClients_maintain gpk e.1 rest
        (upsertStudent st.1 e.1 e.2 gpk, st.2 + 1) hup.1 hup.2
    · have hex' : ∃ a ∈ rest, a.1 = c ∧ truthy a.1 = true ∧
          truthy a.2 = true := by
        obtain ⟨a, ha, hprop⟩ := hex
        rcases List.mem_cons.1 ha with rfl | ha
        · exact absurd hprop hc
        · exact ⟨a, ha, hprop⟩
      by_cases he : (truthy e.1 && truthy e.2) = true
      · rw [if_pos he]
        have hne : e.1 ≠ c := by
          intro hec
          have hpair : truthy e.1 = true ∧ truthy e.2 = true := by
            rw [Bool.and_eq_true] at he
            exact he
          exact hc ⟨hec, hpair.1, hpair.2⟩
        have hrw := rowsWithCid_upsert_other st.1 e.1 e.2 gpk c hne
        exact ih (upsertStudent st.1 e.1 e.2 gpk, st.2 + 1)
          (by rw [hrw]; exact hlen) hex'
      · rw [if_neg he]
        exact ih st hlen hex'

/-- Helper: a group whose fetched client list has no well-formed entry for a
customer id leaves that id's rows untouched. -/
theorem studentSyncStep_no_entry
    (env : Int → String → Option (List (JValue × JValue))) (g : SGroup)
    (c : JValue) (st : List StudentRow × Nat)
    (h : ∀ l, env g.crm_group_id (branchOf g) = some l →
      ∀ e ∈ l, e.1 = c → ¬(truthy e.1 = true ∧ truthy e.2 = true)) :
    rowsWithCid (studentSyncStep env st g).1 c = rowsWithCid st.1 c := by
  unfold studentSyncStep
  rcases henv : env g.crm_group_id (branchOf g) with _ | clients
  · rfl
  · by_cases hemp : clients.isEmpty = true
    · simp [hemp]
    · simp only [Bool.not_eq_true] at hemp
      simp only [hemp, Bool.false_eq_true, if_false]
      exact syncGroupClients_no_entry g.pk c clients st (h clients henv)

/-- Helper: a group whose fetched client list has a well-formed entry for a
customer id leaves exactly one row for it, pointing at that group. -/
theorem studentSyncStep_establish
    (env : Int → String → Option (List (JValue × JValue))) (g : SGroup)
    (c : JValue) (st : List StudentRow × Nat)
    (hlen : (rowsWithCid st.1 c).length ≤ 1)
    (hc : ∃ l, env g.crm_group_id (branchOf g) = some l ∧
      ∃ e ∈ l, e.1 = c ∧ truthy e.1 = true ∧ truthy e.2 = true) :
    (rowsWithCid (studentSyncStep env st g).1 c).length = 1 ∧
    ∀ r ∈ rowsWithCid (studentSyncStep env st g).1 c,
      r.group_pk = some g.pk := by
  obtain ⟨l, henv, hex⟩ := hc
  have hne : l.isEmpty = false := by
    obtain ⟨e, hel, _⟩ := hex
    cases l
    · cases hel
    · rfl
  unfold studentSyncStep
  rw [henv]
  simp only [hne, Bool.false_eq_true, if_false]
  exact syncGroupClients_establish g.pk c l st hlen hex

/-- Helper: once exactly one row is stored for a customer id pointing at
group `pkB`, folding groups that only ever list that customer under `pkB`
keeps it so. -/
theorem syncStudentsFold_maintain
    (env : Int → String → Option (List (JValue × JValue))) (c : JValue)
    (pkB : Nat) :
    ∀ (groups : List SGroup) (st : List StudentRow × Nat),
      (rowsWithCid st.1 c).length = 1 →
      (∀ r ∈ rowsWithCid st.1 c, r.group_pk = some pkB) →
      (∀ g ∈ groups, (∃ l, env g.crm_group_id (branchOf g) = some l ∧
        ∃ e ∈ l, e.1 = c ∧ truthy e.1 = true ∧ truthy e.2 = true) →
        g.pk = pkB) →
      (rowsWithCid (groups.foldl (studentSyncStep env) st).1 c).length = 1 ∧
      ∀ r ∈ rowsWithCid (groups.foldl (studentSyncStep env) st).1 c,
        r.group_pk = some pkB := by
  intro groups
  induction groups with
  | nil => intro st h1 h2 _; exact ⟨h1, h2⟩
  | cons g rest ih =>
    intro st h1 h2 honly
    rw [List.foldl_cons]
    by_cases hg : ∃ l, env g.crm_group_id (branchOf g) = some l ∧
        ∃ e ∈ l, e.1 = c ∧ truthy e.1 = true ∧ truthy e.2 = true
    · have hpk : g.pk = pkB := honly g (List.mem_cons_self g rest) hg
      have hstep := studentSyncStep_establish env g c st (by omega) hg
      rw [hpk] at hstep
      exact ih (studentSyncStep env st g) hstep.1 hstep.2
        (fun a ha => honly a (List.mem_cons_of_mem g ha))
    · have hpres : rowsWithCid (studentSyncStep env st g).1 c =
          rowsWithCid st.1 c := by
        apply studentSyncStep_no_entry
        intro l henv e hel hec hpair
        exact hg ⟨l, henv, e, hel, hec, hpair.1, hpair.2⟩
      exact ih (studentSyncStep env st g) (by rw [hpres]; exact h1)
        (by rw [hpres]; exact h2)
        (fun a ha => honly a (List.mem_cons_of_mem g ha))

/-- Helper: folding over groups that include one listing the customer — and
none listing them under another primary key — ends with exactly one row,
pointing at that key. -/
theorem syncStudentsFold_main
    (env : Int → String → Option (List (JValue × JValue))) (c : JValue)
    (B : SGroup) :
    ∀ (groups : List SGroup) (st : List StudentRow × Nat),
      (rowsWithCid st.1 c).length ≤ 1 → B ∈ groups →
      (∃ l, env B.crm_group_id (branchOf B) = some l ∧
        ∃ e ∈ l, e.1 = c ∧ truthy e.1 = true ∧ truthy e.2 = true) →
      (∀ g ∈ groups, (∃ l, env g.crm_group_id (branchOf g) = some l ∧
        ∃ e ∈ l, e.1 = c ∧ truthy e.1 = true ∧ truthy e.2 = true) →
        g.pk = B.pk) →
      (rowsWithCid (groups.foldl (studentSyncStep env) st).1 c).length = 1 ∧
      ∀ r ∈ rowsWithCid (groups.foldl (studentSyncStep env) st).1 c,
        r.group_pk = some B.pk := by
  intro groups
  induction groups with
  | nil => intro st _ hB; cases hB
  | cons g rest ih =>
    intro st hlen hB hBc honly
    rw [List.foldl_cons]
    by_cases hg : ∃ l, env g.crm_group_id (branchOf g) = some l ∧
        ∃ e ∈ l, e.1 = c ∧ truthy e.1 = true ∧ truthy e.2 = true
    · have hpk : g.pk = B.pk := honly g (List.mem_cons_self g rest) hg
      have hstep := studentSyncStep_establish env g c st hlen hg
      rw [hpk] at hstep
      exact syncStudentsFold_maintain env c B.pk rest
        (studentSyncStep env st g) hstep.1 hstep.2
        (fun a ha => honly a (List.mem_cons_of_mem g ha))
    · have hpres : rowsWithCid (studentSyncStep env st g).1 c =
          rowsWithCid st.1 c := by
        apply studentSyncStep_no_entry
        intro l henv e hel hec hpair
        exact hg ⟨l, henv, e, hel, hec, hpair.1, hpair.2⟩
      have hBrest : B ∈ rest := by
        rcases List.mem_cons.1 hB with rfl | hB
        · exact absurd hBc hg
        · exact hB
      exact ih (studentSyncStep env st g) (by rw [hpres]; exact hlen)
        hBrest hBc (fun a ha => honly a (List.mem_cons_of_mem g ha))

/-- Helper: if no group's fetched client list carries a well-formed entry for
a customer id, the whole sync leaves that id's rows unchanged. -/
theorem syncStudentsFold_skip
    (env : Int → String → Option (List (JValue × JValue))) (c : JValue) :
    ∀ (groups : List SGroup) (st : List StudentRow × Nat),
      (∀ g ∈ groups, ∀ l, env g.crm_group_id (branchOf g) = some l →
        ∀ e ∈ l, e.1 = c → ¬(truthy e.1 = true ∧ truthy e.2 = true)) →
      rowsWithCid (groups.foldl (studentSyncStep env) st).1 c =
        rowsWithCid st.1 c := by
  intro groups
  induction groups with
  | nil => intro st _; rfl
  | cons g rest ih =>
    intro st h
    rw [List.foldl_cons,
      ih (studentSyncStep env st g)
        (fun a ha => h a (List.mem_cons_of_mem g ha)),
      studentSyncStep_no_entry env g c st (h g (List.mem_cons_self g rest))]

/-- C4: after the student sync, a student whose CRM data lists them (only)
under Group B is stored in exactly one Student row, whose group pointer
references B — even if they were previously stored under another group — and
a customer id that appears in no well-formed client entry gains no row:
its stored rows are exactly what they were before the sync. -/
theorem syncStudents_reassignment (groups : List SGroup)
    (env : Int → String → Option (List (JValue × JValue)))
    (db : List StudentRow) (c : JValue) (B : SGroup)
    (huniq : (rowsWithCid db c).length ≤ 1)
    (hB : B ∈ groups)
    (hBc : ∃ l, env B.crm_group_id (branchOf B) = some l ∧
      ∃ e ∈ l, e.1 = c ∧ truthy e.1 = true ∧ truthy e.2 = true)
    (honly : ∀ g ∈ groups,
      (∃ l, env g.crm_group_id (branchOf g) = some l ∧
        ∃ e ∈ l, e.1 = c ∧ truthy e.1 = true ∧ truthy e.2 = true) →
      g.pk = B.pk) :
    ((rowsWithCid (syncStudents groups env db).1 c).length = 1 ∧
      ∀ r ∈ rowsWithCid (syncStudents groups env db).1 c,
        r.group_pk = some B.pk) ∧
    ∀ c', (∀ g ∈ groups, ∀ l, env g.crm_group_id (branchOf g) = some l →
        ∀ e ∈ l, e.1 = c' → ¬(truthy e.1 = true ∧ truthy e.2 = true)) →
      rowsWithCid (syncStudents groups env db).1 c' = rowsWithCid db c' := by
  constructor
  · exact syncStudentsFold_main env c B groups (db, 0) huniq hB hBc honly
  · intro c' h
    exact syncStudentsFold_skip env c' groups (db, 0) h

/-- Witness for C4: customer 5, stored under group primary key 1, is listed
by the CRM only under Group B (primary key 2); after the sync exactly one
row stores customer 5 and it points at B. -/
theorem syncStudents_reassignment_witness :
    (rowsWithCid (syncStudents [groupB] reassignEnv reassignDb).1
        (.num 5)).length = 1 ∧
    ∀ r ∈ rowsWithCid (syncStudents [groupB] reassignEnv reassignDb).1
        (.num 5), r.group_pk = some 2 :=
  (syncStudents_reassignment [groupB] reassignEnv reassignDb (.num 5) groupB
    (by decide) (by decide)
    ⟨[(.num 5, .str "Сергей")], by decide,
      (.num 5, .str "Сергей"), by decide, rfl, by decide, by decide⟩
    (fun g hg _ => by
      have : g = groupB := by simpa using hg
      rw [this])).1
